import Mathlib

/-!
# QOLTampering: the two userscripts

* `ShareReplacer`: `src/Twitter/shareReplacer.js`, the clipboard link rewriter.
* `PersistentVolume`: `src/Universal/persistentVolume.js`, the per-site volume saver.

Texts are lists of characters.  The regular expression `/(x\.com|twitter\.com)/`
is made of ASCII literals only, so matching it position by position on
characters finds the same matches as matching on UTF-16 code units.
-/

namespace ShareReplacer

/-- A JavaScript string value. -/
abbrev Text := List Char

/-- Line 17: `const REPLACEMENT_DOMAIN = 'vxtwitter.com'`. -/
def REPLACEMENT_DOMAIN : Text := "vxtwitter.com".toList

/-- First alternative of the pattern on line 25, `x\.com`. -/
def xDomain : Text := "x.com".toList

/-- Second alternative of the pattern on line 25, `twitter\.com`. -/
def twitterDomain : Text := "twitter.com".toList

/-- The pattern `(x\.com|twitter\.com)` tried at the start of `t`: the
alternatives are tried left to right, the result is the length of the match. -/
def matchHere (t : Text) : Option Nat :=
  if xDomain <+: t then some xDomain.length
  else if twitterDomain <+: t then some twitterDomain.length
  else none

/-- The search of a non-global regular expression: the smallest index at which
the pattern matches, with the length of the match there. -/
def exec : Text → Option (Nat × Nat)
  | [] => none
  | c :: cs =>
    match matchHere (c :: cs) with
    | some n => some (0, n)
    | none => (exec cs).map fun r => (r.1 + 1, r.2)

/-- Line 25: `originalText.replace(/(x\.com|twitter\.com)/, REPLACEMENT_DOMAIN)`.
The replacement string holds no `$`, so it is inserted as it is. -/
def replace (t : Text) : Text :=
  match exec t with
  | none => t
  | some (i, n) => t.take i ++ REPLACEMENT_DOMAIN ++ t.drop (i + n)

/-- What a rejected clipboard promise carries. -/
abbrev ClipboardError := String

/-- Calls made on `navigator.clipboard`. -/
inductive ClipboardCall
  | readText
  | writeText (text : Text)
deriving DecidableEq, Repr

/-- Lines written to the console. -/
inductive ConsoleEntry
  | log (text : Text)
  | error (err : ClipboardError)
deriving DecidableEq, Repr

/-- The host clipboard as the handler meets it: how `readText()` settles and
how `writeText(s)` settles for each `s`. -/
structure Navigator where
  readText : Except ClipboardError Text
  writeText : Text → Except ClipboardError Unit

/-- Everything the handler does to the outside. -/
structure Effects where
  calls : List ClipboardCall
  console : List ConsoleEntry
deriving DecidableEq, Repr

/-- Code that may throw and that records its effects as it goes. -/
abbrev Handler := ExceptT ClipboardError (StateM Effects)

/-- `await navigator.clipboard.readText()`. -/
def readText (nav : Navigator) : Handler Text := do
  modify fun fx => { fx with calls := fx.calls ++ [.readText] }
  match nav.readText with
  | .ok text => pure text
  | .error err => throw err

/-- `await navigator.clipboard.writeText(text)`. -/
def writeText (nav : Navigator) (text : Text) : Handler Unit := do
  modify fun fx => { fx with calls := fx.calls ++ [.writeText text] }
  match nav.writeText text with
  | .ok _ => pure ()
  | .error err => throw err

/-- `console.log(...)` of line 30, recorded by the rewritten text it reports. -/
def consoleLog (text : Text) : Handler Unit :=
  modify fun fx => { fx with console := fx.console ++ [.log text] }

/-- `console.error(...)` of line 34. -/
def consoleError (err : ClipboardError) : Handler Unit :=
  modify fun fx => { fx with console := fx.console ++ [.error err] }

/-- Lines 22 to 31, the body of the `try` block. -/
def modifyClipboardTry (nav : Navigator) : Handler Unit := do
  let originalText ← readText nav
  let newText := replace originalText
  if originalText ≠ newText then
    writeText nav newText
    consoleLog newText

/-- Lines 20 to 36: `async function modifyClipboard()`. -/
def modifyClipboard (nav : Navigator) : Handler Unit :=
  tryCatch (modifyClipboardTry nav) fun err => consoleError err

/-- One invocation, started with nothing recorded: how it completes (`.ok`
when nothing escapes, `.error` when an exception does) and its effects. -/
def runModifyClipboard (nav : Navigator) : Except ClipboardError Unit × Effects :=
  (modifyClipboard nav).run.run { calls := [], console := [] }

/-- The pattern literal `pat` occurs in `t` starting at index `i`. -/
def occursAt (pat t : Text) (i : Nat) : Prop := pat <+: t.drop i

instance (pat t : Text) (i : Nat) : Decidable (occursAt pat t i) :=
  inferInstanceAs (Decidable (pat <+: t.drop i))

/-- The text `t` contains `"x.com"` or `"twitter.com"` as a substring. -/
def hasMatch (t : Text) : Prop := xDomain <:+: t ∨ twitterDomain <:+: t

/-- Whether a clipboard call is a `writeText`. -/
def ClipboardCall.isWrite : ClipboardCall → Bool
  | .writeText _ => true
  | .readText => false

end ShareReplacer

namespace PersistentVolume

/-!
Numbers are rationals: the script only compares volumes (`!==`, `=== null`,
`> 0`) and never computes with them, and a media element's `volume` is always
a finite number from 0 to 1, so the comparisons are those of the values
themselves.
`siteSpecificVolume` is `null` or a number, which is `Option ℚ`.
-/

/-- Line 20: `const DEFAULT_VOLUME = 1.0`. -/
def DEFAULT_VOLUME : ℚ := 1

/-- What the script reads and writes of a `<video>` or `<audio>` element:
`volume`, `muted`, and whether `handleVolumeChange` listens for `volumechange`
on it. -/
structure MediaElement where
  volume : ℚ
  muted : Bool
  listening : Bool

/-- Calls made on the userscript storage. -/
inductive GMCall
  | getValue (key : String) (defaultValue : ℚ)
  | setValue (key : String) (value : ℚ)
deriving DecidableEq

/-- Whether a storage call is a `GM_getValue`. -/
def GMCall.isGet : GMCall → Bool
  | .getValue _ _ => true
  | .setValue _ _ => false

/-- Whether a storage call is a `GM_setValue`. -/
def GMCall.isSet : GMCall → Bool
  | .getValue _ _ => false
  | .setValue _ _ => true

/-- The page as the script sees it: `siteKey` (line 19, the hostname), the
module variable `siteSpecificVolume` (line 22), the userscript storage, the
media elements by identity, and the storage calls made so far. -/
structure Page where
  siteKey : String
  siteSpecificVolume : Option ℚ
  storage : String → Option ℚ
  elements : Nat → MediaElement
  calls : List GMCall

/-- `GM_setValue(key, value)`. -/
def GM_setValue (key : String) (value : ℚ) (p : Page) : Page :=
  { p with
    storage := Function.update p.storage key (some value)
    calls := p.calls ++ [.setValue key value] }

/-- `GM_getValue(key, defaultValue)`: the stored value, or the default when
nothing is stored under the key. -/
def GM_getValue (key : String) (defaultValue : ℚ) (p : Page) : ℚ × Page :=
  ((p.storage key).getD defaultValue, { p with calls := p.calls ++ [.getValue key defaultValue] })

/-- Lines 27 to 34: `saveVolume(volume)`. -/
def saveVolume (volume : ℚ) (p : Page) : Page :=
  if some volume ≠ p.siteSpecificVolume then
    GM_setValue p.siteKey volume { p with siteSpecificVolume := some volume }
  else p

/-- Lines 39 to 41 of `applyVolume` as far as the `await`: when the variable
is `null` the call to `GM_getValue` is made and the function is suspended on
its result (returned here); otherwise nothing happens and it goes on. -/
def applyVolumeStart (p : Page) : Option ℚ × Page :=
  if p.siteSpecificVolume = none then
    let r := GM_getValue p.siteKey DEFAULT_VOLUME p
    (some r.1, r.2)
  else (none, p)

/-- Lines 45 to 54 of `applyVolume`. The `volume` setter of a media element
takes values from 0 to 1 only: given any other number it throws
(`IndexSizeError`), which ends the call on line 45, before the un-mute and
before `addEventListener`, with the page as it was. Assigning `null` to
`volume` would store `0` and `null > 0` is false; `GM_getValue` never yields
`null` here. -/
def applyVolumeRest (element : Nat) (p : Page) : Page :=
  let c := p.siteSpecificVolume.getD 0
  if 0 ≤ c ∧ c ≤ 1 then
    let e := p.elements element
    let e := { e with volume := c }
    let e := if c > 0 then { e with muted := false } else e
    let e := { e with listening := true }
    { p with elements := Function.update p.elements element e }
  else p

/-- Line 41 once the awaited value has arrived: the assignment to
`siteSpecificVolume`, then the rest of the function. -/
def applyVolumeResume (element : Nat) (value : ℚ) (p : Page) : Page :=
  applyVolumeRest element { p with siteSpecificVolume := some value }

/-- Lines 37 to 55: one `applyVolume(element)` call that runs to its end with
nothing else running in between. -/
def applyVolume (element : Nat) (p : Page) : Page :=
  match applyVolumeStart p with
  | (some value, p') => applyVolumeResume element value p'
  | (none, p') => applyVolumeRest element p'

/-- Lines 58 to 62: `handleVolumeChange(event)`, with `event.target` given by
its identity. -/
def handleVolumeChange (target : Nat) (p : Page) : Page :=
  saveVolume (p.elements target).volume p

/-- A `volumechange` event fired at an element: the handler runs when it was
registered on that element. -/
def volumechange (target : Nat) (p : Page) : Page :=
  if (p.elements target).listening then handleVolumeChange target p else p

/-- The user moves the volume control of an element to `volume`: the element
takes the value and a `volumechange` event is fired at it. -/
def userSetsVolume (target : Nat) (volume : ℚ) (p : Page) : Page :=
  let e := p.elements target
  volumechange target { p with elements := Function.update p.elements target { e with volume := volume } }

/-- Elements handed to `applyVolume` one after the other, each call
finishing before the next one starts. -/
def applyEach (elements : List Nat) (p : Page) : Page :=
  elements.foldl (fun q element => applyVolume element q) p

/-- Successive discovery events, each handing over its elements in turn. -/
def discoveries (events : List (List Nat)) (p : Page) : Page :=
  events.foldl (fun q elements => applyEach elements q) p

/-- An `applyVolume` call suspended at the `await` of line 41: its element
and the value its `GM_getValue` call produced. -/
structure Suspended where
  element : Nat
  value : ℚ

/-- One call `applyVolume(element)` made from a synchronous loop: it runs
until it is suspended at the `await`, or to its end when it never awaits. -/
def callApplyVolume (element : Nat) (s : Page × List Suspended) : Page × List Suspended :=
  match applyVolumeStart s.1 with
  | (some value, p) => (p, s.2 ++ [⟨element, value⟩])
  | (none, p) => (applyVolumeRest element p, s.2)

/-- The suspended calls are resumed in the order in which they were suspended. -/
def resumeAll (queue : List Suspended) (p : Page) : Page :=
  queue.foldl (fun q t => applyVolumeResume t.element t.value q) p

/-- Lines 77 and 90: `querySelectorAll('video, audio').forEach(applyVolume)`.
The loop makes every call before any suspended call is resumed. -/
def forEachApplyVolume (elements : List Nat) (p : Page) : Page :=
  let s := elements.foldl (fun s element => callApplyVolume element s) (p, [])
  resumeAll s.2 s.1

/-- Number of `GM_getValue` calls among the storage calls. -/
def getCount (calls : List GMCall) : Nat := (calls.filter GMCall.isGet).length

/-- Number of `GM_setValue` calls among the storage calls. -/
def setCount (calls : List GMCall) : Nat := (calls.filter GMCall.isSet).length

/-- The element that lines 45 to 54 leave behind when the cached value is `c`
and the element was `old` before. -/
def applied (c : ℚ) (old : MediaElement) : MediaElement :=
  { volume := c, muted := if c > 0 then false else old.muted, listening := true }

/-- A page of `example.com` with nothing cached, nothing stored and no
storage call made yet; every element starts at volume `1/2`, muted. -/
def examplePage : Page where
  siteKey := "example.com"
  siteSpecificVolume := none
  storage := fun _ => none
  elements := fun _ => { volume := 1 / 2, muted := true, listening := false }
  calls := []

end PersistentVolume

/-! ## The link rewriter: matching and replacing -/

namespace ShareReplacer

theorem xDomain_eq : xDomain = ['x', '.', 'c', 'o', 'm'] := by decide

theorem twitterDomain_eq :
    twitterDomain = ['t', 'w', 'i', 't', 't', 'e', 'r', '.', 'c', 'o', 'm'] := by decide

theorem REPLACEMENT_DOMAIN_eq : REPLACEMENT_DOMAIN = ['v', 'x'] ++ twitterDomain := by decide

theorem matchHere_xDomain (s : Text) : matchHere (xDomain ++ s) = some 5 := by
  simp [matchHere, xDomain_eq]

theorem matchHere_twitterDomain (s : Text) : matchHere (twitterDomain ++ s) = some 11 := by
  simp [matchHere, xDomain_eq, twitterDomain_eq]

theorem matchHere_eq_none_iff (t : Text) :
    matchHere t = none ↔ ¬ xDomain <+: t ∧ ¬ twitterDomain <+: t := by
  unfold matchHere
  split_ifs <;> simp_all

theorem matchHere_some (t : Text) (n : Nat) (h : matchHere t = some n) :
    n ≤ t.length ∧ n ≤ 11 ∧ (xDomain <+: t ∨ twitterDomain <+: t) := by
  unfold matchHere at h
  split_ifs at h with h1 h2
  · have := h1.length_le
    simp only [Option.some.injEq] at h
    subst h
    exact ⟨this, by decide, Or.inl h1⟩
  · have := h2.length_le
    simp only [Option.some.injEq] at h
    subst h
    exact ⟨this, by decide, Or.inr h2⟩

theorem exec_append (p rest : Text) (n : Nat)
    (hbefore : ∀ i < p.length, matchHere ((p ++ rest).drop i) = none)
    (hhere : matchHere rest = some n) :
    exec (p ++ rest) = some (p.length, n) := by
  induction p with
  | nil =>
    cases rest with
    | nil => simp [matchHere, xDomain_eq, twitterDomain_eq] at hhere
    | cons c cs => simp [exec, hhere]
  | cons c p ih =>
    have h0 := hbefore 0 (by simp)
    have hrest : ∀ i < p.length, matchHere ((p ++ rest).drop i) = none := by
      intro i hi
      have := hbefore (i + 1) (by simpa using hi)
      simpa using this
    simp only [List.drop_zero, List.cons_append] at h0
    simp [exec, h0, ih hrest]

theorem exec_eq_none (t : Text) (h : ∀ i, matchHere (t.drop i) = none) : exec t = none := by
  induction t with
  | nil => rfl
  | cons c cs ih =>
    have h0 := h 0
    simp only [List.drop_zero] at h0
    have hrest : ∀ i, matchHere (cs.drop i) = none := fun i => by simpa using h (i + 1)
    simp [exec, h0, ih hrest]

theorem exec_some (t : Text) (i n : Nat) (h : exec t = some (i, n)) :
    matchHere (t.drop i) = some n := by
  induction t generalizing i with
  | nil => simp [exec] at h
  | cons c cs ih =>
    unfold exec at h
    split at h
    · simp only [Option.some.injEq, Prod.mk.injEq] at h
      obtain ⟨rfl, rfl⟩ := h
      simpa
    · simp only [Option.map_eq_some'] at h
      obtain ⟨⟨j, m⟩, hj, hjm⟩ := h
      simp only [Prod.mk.injEq] at hjm
      obtain ⟨rfl, rfl⟩ := hjm
      simpa using ih j hj

theorem hasMatch_iff (t : Text) : hasMatch t ↔ ∃ i, matchHere (t.drop i) ≠ none := by
  constructor
  · rintro (h | h)
    · obtain ⟨s, u, rfl⟩ := h
      refine ⟨s.length, ?_⟩
      simp [matchHere_xDomain]
    · obtain ⟨s, u, rfl⟩ := h
      refine ⟨s.length, ?_⟩
      simp [matchHere_twitterDomain]
  · rintro ⟨i, hi⟩
    rw [Ne, matchHere_eq_none_iff] at hi
    have hsuf : t.drop i <:+: t := (List.drop_suffix i t).isInfix
    by_cases hx : xDomain <+: t.drop i
    · exact Or.inl (hx.isInfix.trans hsuf)
    · have : twitterDomain <+: t.drop i := by
        by_contra htw
        exact hi ⟨hx, htw⟩
      exact Or.inr (this.isInfix.trans hsuf)

theorem matchHere_of_exec_eq_none (t : Text) (h : exec t = none) (i : Nat) :
    matchHere (t.drop i) = none := by
  induction t generalizing i with
  | nil => simp [matchHere, xDomain_eq, twitterDomain_eq]
  | cons c cs ih =>
    unfold exec at h
    split at h
    · simp at h
    · rename_i hnone
      simp only [Option.map_eq_none'] at h
      cases i with
      | zero => simpa using hnone
      | succ j => simpa using ih h j

theorem exec_eq_none_iff (t : Text) : exec t = none ↔ ¬ hasMatch t := by
  rw [hasMatch_iff]
  constructor
  · intro h
    rintro ⟨i, hi⟩
    exact hi (matchHere_of_exec_eq_none t h i)
  · intro h
    apply exec_eq_none
    intro i
    by_contra hne
    exact h ⟨i, hne⟩

theorem replace_of_not_hasMatch (t : Text) (h : ¬ hasMatch t) : replace t = t := by
  unfold replace
  rw [(exec_eq_none_iff t).2 h]

theorem replace_append (p m s : Text)
    (hbefore : ∀ i < p.length, matchHere ((p ++ (m ++ s)).drop i) = none)
    (hhere : matchHere (m ++ s) = some m.length) :
    replace (p ++ (m ++ s)) = p ++ REPLACEMENT_DOMAIN ++ s := by
  unfold replace
  rw [exec_append p (m ++ s) m.length hbefore hhere]
  simp

theorem length_replace_of_hasMatch (t : Text) (h : hasMatch t) :
    t.length < (replace t).length := by
  unfold replace
  cases hex : exec t with
  | none => exact absurd h ((exec_eq_none_iff t).1 hex)
  | some r =>
    obtain ⟨i, n⟩ := r
    have hm := matchHere_some _ _ (exec_some t i n hex)
    have hlen : (t.drop i).length = t.length - i := by simp
    have hR : REPLACEMENT_DOMAIN.length = 13 := by decide
    simp only [List.length_append, List.length_take, List.length_drop, hR]
    omega

theorem hasMatch_replace (t : Text) (h : hasMatch t) : hasMatch (replace t) := by
  unfold replace
  cases hex : exec t with
  | none => exact absurd h ((exec_eq_none_iff t).1 hex)
  | some r =>
    obtain ⟨i, n⟩ := r
    right
    refine ⟨t.take i ++ ['v', 'x'], t.drop (i + n), ?_⟩
    simp [REPLACEMENT_DOMAIN_eq]

theorem hasMatch_replace_iff (t : Text) : hasMatch (replace t) ↔ hasMatch t := by
  constructor
  · intro h
    by_contra hno
    rw [replace_of_not_hasMatch t hno] at h
    exact hno h
  · exact hasMatch_replace t

theorem replace_replace_ne_of_hasMatch (t : Text) (h : hasMatch t) :
    replace (replace t) ≠ replace t := by
  intro heq
  have := length_replace_of_hasMatch (replace t) (hasMatch_replace t h)
  rw [heq] at this
  exact lt_irrefl _ this

/-! ## The link rewriter: the runs of `modifyClipboard` -/

theorem run_readError (e : ClipboardError) (w : Text → Except ClipboardError Unit) :
    runModifyClipboard ⟨.error e, w⟩ = (.ok (), ⟨[.readText], [.error e]⟩) := rfl

theorem run_unchanged (t : Text) (w : Text → Except ClipboardError Unit) (h : t = replace t) :
    runModifyClipboard ⟨.ok t, w⟩ = (.ok (), ⟨[.readText], []⟩) := by
  unfold runModifyClipboard modifyClipboard modifyClipboardTry
  simp only [readText, bind_assoc, pure_bind]
  have : ¬ (t ≠ replace t) := by simpa using h
  rw [if_neg this]
  rfl

theorem run_changed_ok (t : Text) (w : Text → Except ClipboardError Unit) (h : t ≠ replace t)
    (hw : w (replace t) = .ok ()) :
    runModifyClipboard ⟨.ok t, w⟩
      = (.ok (), ⟨[.readText, .writeText (replace t)], [.log (replace t)]⟩) := by
  unfold runModifyClipboard modifyClipboard modifyClipboardTry
  simp only [readText, writeText, bind_assoc, pure_bind]
  rw [if_pos h, hw]
  rfl

theorem run_changed_error (t : Text) (w : Text → Except ClipboardError Unit) (h : t ≠ replace t)
    (e : ClipboardError) (hw : w (replace t) = .error e) :
    runModifyClipboard ⟨.ok t, w⟩
      = (.ok (), ⟨[.readText, .writeText (replace t)], [.error e]⟩) := by
  unfold runModifyClipboard modifyClipboard modifyClipboardTry
  simp only [readText, writeText, bind_assoc, pure_bind]
  rw [if_pos h, hw]
  rfl

theorem occursAt_lt_length (pat t : Text) (i : Nat) (hpat : pat ≠ []) (h : occursAt pat t i) :
    i < t.length := by
  by_contra hi
  have hnil : t.drop i = [] := List.drop_eq_nil_of_le (Nat.le_of_not_lt hi)
  unfold occursAt at h
  rw [hnil] at h
  exact hpat (List.prefix_nil.1 h)

theorem occursAt_of_bounded (pat t : Text) (k : Nat) (hpat : pat ≠ [])
    (h : ∀ i < t.length, occursAt pat t i → i = k) : ∀ i, occursAt pat t i → i = k :=
  fun i hi => h i (occursAt_lt_length pat t i hpat hi) hi

theorem matchHere_none_of_not_occursAt (t : Text) (i : Nat)
    (h : ¬ occursAt xDomain t i ∧ ¬ occursAt twitterDomain t i) :
    matchHere (t.drop i) = none :=
  (matchHere_eq_none_iff _).2 h

theorem replace_at_first (P M S : Text) (hM : M = xDomain ∨ M = twitterDomain)
    (hfirst : ∀ i < P.length,
      ¬ occursAt xDomain (P ++ M ++ S) i ∧ ¬ occursAt twitterDomain (P ++ M ++ S) i) :
    replace (P ++ M ++ S) = P ++ REPLACEMENT_DOMAIN ++ S := by
  rw [List.append_assoc] at hfirst ⊢
  apply replace_append
  · intro i hi
    exact matchHere_none_of_not_occursAt _ i (hfirst i hi)
  · rcases hM with rfl | rfl
    · exact matchHere_xDomain S
    · exact matchHere_twitterDomain S

/-! ## The link rewriter: the claims -/

/-- C1: the rewrite of `modifyClipboard` replaces only the leftmost occurrence
of `"x.com"` or `"twitter.com"`: when `T = P ++ M ++ S` with `M` one of the two
literals and no occurrence of either literal starts before `M`, the result is
`P ++ "vxtwitter.com" ++ S`; and the text
`"check this out https://x.com/user/status/123"` becomes
`"check this out https://vxtwitter.com/user/status/123"`, which is what a run
of `modifyClipboard` writes to the clipboard. -/
theorem C1_replace_first_occurrence :
    (∀ P M S : Text, (M = xDomain ∨ M = twitterDomain) →
      (∀ i < P.length,
        ¬ occursAt xDomain (P ++ M ++ S) i ∧ ¬ occursAt twitterDomain (P ++ M ++ S) i) →
      replace (P ++ M ++ S) = P ++ REPLACEMENT_DOMAIN ++ S) ∧
    replace "check this out https://x.com/user/status/123".toList
      = "check this out https://vxtwitter.com/user/status/123".toList ∧
    (runModifyClipboard
        ⟨.ok "check this out https://x.com/user/status/123".toList, fun _ => .ok ()⟩).2.calls
      = [.readText, .writeText "check this out https://vxtwitter.com/user/status/123".toList] :=
  ⟨replace_at_first, by decide, by decide⟩

/-- C1 at `P = "see https://"`, `M = "twitter.com"`, `S = "/a or x.com/a"`: the
later `"x.com"` in `S` stays. -/
theorem C1_replace_first_occurrence_witness :
    (∀ i < "see https://".toList.length,
      ¬ occursAt xDomain ("see https://".toList ++ twitterDomain ++ "/a or x.com/a".toList) i ∧
      ¬ occursAt twitterDomain
          ("see https://".toList ++ twitterDomain ++ "/a or x.com/a".toList) i) ∧
    replace ("see https://".toList ++ twitterDomain ++ "/a or x.com/a".toList)
      = "see https://".toList ++ REPLACEMENT_DOMAIN ++ "/a or x.com/a".toList :=
  ⟨by decide,
   C1_replace_first_occurrence.1 "see https://".toList twitterDomain "/a or x.com/a".toList
     (Or.inr rfl) (by decide)⟩

/-- C2: when the clipboard text contains neither `"x.com"` nor `"twitter.com"`,
the new text equals the text read and `modifyClipboard` makes the one call
`readText` and no `writeText`, whatever `writeText` would do. -/
theorem C2_no_match_no_write (T : Text) (w : Text → Except ClipboardError Unit)
    (hx : ¬ xDomain <:+: T) (ht : ¬ twitterDomain <:+: T) :
    replace T = T ∧
    (runModifyClipboard ⟨.ok T, w⟩).2.calls = [.readText] ∧
    ∀ s, ClipboardCall.writeText s ∉ (runModifyClipboard ⟨.ok T, w⟩).2.calls := by
  have hno : ¬ hasMatch T := fun h => h.elim hx ht
  have hrep := replace_of_not_hasMatch T hno
  rw [run_unchanged T w hrep.symm]
  exact ⟨hrep, rfl, by simp⟩

/-- C2 at the text `"https://example.org/page"`. -/
theorem C2_no_match_no_write_witness :
    ¬ xDomain <:+: "https://example.org/page".toList ∧
    ¬ twitterDomain <:+: "https://example.org/page".toList ∧
    replace "https://example.org/page".toList = "https://example.org/page".toList ∧
    (runModifyClipboard ⟨.ok "https://example.org/page".toList, fun _ => .ok ()⟩).2.calls
      = [.readText] :=
  have h := C2_no_match_no_write "https://example.org/page".toList (fun _ => .ok ())
    (by decide) (by decide)
  ⟨by decide, by decide, h.1, h.2.1⟩

/-- C3, as stated, fails: `"twitter.com x.com"` contains `"x.com"` exactly once,
at index 12, and the rewrite leaves that occurrence alone: it replaces the
`"twitter.com"` in front of it. -/
theorem C3_counterexample :
    "twitter.com x.com".toList = "twitter.com ".toList ++ xDomain ++ [] ∧
    (∀ i, occursAt xDomain "twitter.com x.com".toList i ↔ i = 12) ∧
    replace "twitter.com x.com".toList = "vxtwitter.com x.com".toList ∧
    replace "twitter.com x.com".toList ≠ "twitter.com ".toList ++ REPLACEMENT_DOMAIN ++ [] := by
  refine ⟨by decide, ?_, by decide, by decide⟩
  intro i
  constructor
  · exact occursAt_of_bounded _ _ 12 (by decide) (by decide) i
  · rintro rfl
    decide

/-- C3, amended: when `"x.com"` occurs in `T = P ++ "x.com" ++ S` only right
after `P` and no `"twitter.com"` starts before it, the rewrite gives
`P ++ "vxtwitter.com" ++ S`: that occurrence is replaced and what follows it,
later matches of the pattern included, is unchanged. -/
theorem C3_single_xDomain (P S : Text)
    (honce : ∀ i, occursAt xDomain (P ++ xDomain ++ S) i → i = P.length)
    (hbefore : ∀ i < P.length, ¬ occursAt twitterDomain (P ++ xDomain ++ S) i) :
    replace (P ++ xDomain ++ S) = P ++ REPLACEMENT_DOMAIN ++ S := by
  apply replace_at_first P xDomain S (Or.inl rfl)
  intro i hi
  refine ⟨fun hx => ?_, hbefore i hi⟩
  have := honce i hx
  omega

/-- C3 amended, at `P = "see https://"`, `S = "/a or twitter.com/a"`. -/
theorem C3_single_xDomain_witness :
    (∀ i, occursAt xDomain ("see https://".toList ++ xDomain ++ "/a or twitter.com/a".toList) i →
      i = "see https://".toList.length) ∧
    (∀ i < "see https://".toList.length,
      ¬ occursAt twitterDomain
          ("see https://".toList ++ xDomain ++ "/a or twitter.com/a".toList) i) ∧
    replace ("see https://".toList ++ xDomain ++ "/a or twitter.com/a".toList)
      = "see https://".toList ++ REPLACEMENT_DOMAIN ++ "/a or twitter.com/a".toList :=
  have honce := occursAt_of_bounded xDomain
    ("see https://".toList ++ xDomain ++ "/a or twitter.com/a".toList)
    "see https://".toList.length (by decide) (by decide)
  ⟨honce, by decide,
   C3_single_xDomain "see https://".toList "/a or twitter.com/a".toList honce (by decide)⟩

/-- C4, on the code: the rewrite of `"https://x.com/user/status/123"` is
`"https://vxtwitter.com/user/status/123"`, which still contains
`"twitter.com"`; with that text on the clipboard `modifyClipboard` rewrites it
again and writes `"https://vxvxtwitter.com/user/status/123"`.  So it is with
every text that has a match: its rewritten text has a match too, and a second
rewrite changes it. -/
theorem C4_rewritten_text_rewritten_again :
    replace "https://x.com/user/status/123".toList
      = "https://vxtwitter.com/user/status/123".toList ∧
    replace "https://vxtwitter.com/user/status/123".toList
      = "https://vxvxtwitter.com/user/status/123".toList ∧
    (runModifyClipboard
        ⟨.ok "https://vxtwitter.com/user/status/123".toList, fun _ => .ok ()⟩).2.calls
      = [.readText, .writeText "https://vxvxtwitter.com/user/status/123".toList] ∧
    (∀ T : Text, hasMatch T →
      hasMatch (replace T) ∧ replace (replace T) ≠ replace T) :=
  ⟨by decide, by decide, by decide,
   fun T h => ⟨hasMatch_replace T h, replace_replace_ne_of_hasMatch T h⟩⟩

/-- C10: whatever `readText` and `writeText` do, `modifyClipboard` completes
without an exception escaping; `readText` is called once and `writeText` at
most once; and when the read fails no `writeText` call is made. -/
theorem C10_clipboard_failures_caught (nav : Navigator) :
    (runModifyClipboard nav).1 = .ok () ∧
    (runModifyClipboard nav).2.calls.count .readText = 1 ∧
    ((runModifyClipboard nav).2.calls.filter ClipboardCall.isWrite).length ≤ 1 ∧
    (∀ e, nav.readText = .error e → (runModifyClipboard nav).2.calls = [.readText]) := by
  obtain ⟨r, w⟩ := nav
  cases r with
  | error e =>
    rw [run_readError]
    simp [ClipboardCall.isWrite]
  | ok t =>
    by_cases h : t = replace t
    · rw [run_unchanged t w h]
      simp [ClipboardCall.isWrite]
    · cases hw : w (replace t) with
      | error e =>
        rw [run_changed_error t w h e hw]
        simp [ClipboardCall.isWrite]
      | ok u =>
        rw [run_changed_ok t w h hw]
        simp [ClipboardCall.isWrite]

/-- C10 at a clipboard whose read is refused. -/
theorem C10_clipboard_failures_caught_witness :
    (runModifyClipboard ⟨.error "NotAllowedError", fun _ => .ok ()⟩).2.calls = [.readText] :=
  (C10_clipboard_failures_caught ⟨.error "NotAllowedError", fun _ => .ok ()⟩).2.2.2
    "NotAllowedError" rfl

end ShareReplacer

/-! ## The volume saver: what the operations do to the page -/

namespace PersistentVolume

theorem applyVolume_of_loaded (e : Nat) (p : Page) (h : p.siteSpecificVolume ≠ none) :
    applyVolume e p = applyVolumeRest e p := by
  simp [applyVolume, applyVolumeStart, h]

theorem applyVolume_of_null (e : Nat) (p : Page) (h : p.siteSpecificVolume = none) :
    applyVolume e p = applyVolumeRest e
      { p with
        siteSpecificVolume := some ((p.storage p.siteKey).getD DEFAULT_VOLUME)
        calls := p.calls ++ [.getValue p.siteKey DEFAULT_VOLUME] } := by
  simp [applyVolume, applyVolumeStart, applyVolumeResume, GM_getValue, h]

theorem applyVolumeRest_fields (e : Nat) (p : Page) :
    (applyVolumeRest e p).siteSpecificVolume = p.siteSpecificVolume ∧
    (applyVolumeRest e p).calls = p.calls ∧
    (applyVolumeRest e p).storage = p.storage ∧
    (applyVolumeRest e p).siteKey = p.siteKey := by
  unfold applyVolumeRest
  dsimp only
  split_ifs <;> exact ⟨rfl, rfl, rfl, rfl⟩

theorem applyVolumeRest_elements (e : Nat) (p : Page) (c : ℚ)
    (h : p.siteSpecificVolume = some c) (hlo : 0 ≤ c) (hhi : c ≤ 1) (x : Nat) :
    (applyVolumeRest e p).elements x = if x = e then applied c (p.elements e) else p.elements x := by
  unfold applyVolumeRest applied
  by_cases hx : x = e
  · subst hx
    by_cases hc : c > 0 <;> simp [h, hc, hlo, hhi]
  · simp [h, hx, hlo, hhi, Function.update_noteq hx]

theorem applyVolumeRest_out_of_range (e : Nat) (p : Page) (c : ℚ)
    (h : p.siteSpecificVolume = some c) (hout : c < 0 ∨ 1 < c) :
    applyVolumeRest e p = p := by
  unfold applyVolumeRest
  have : ¬ (0 ≤ c ∧ c ≤ 1) := by
    rintro ⟨h0, h1⟩
    rcases hout with h' | h'
    · exact absurd h0 (not_le.2 h')
    · exact absurd h1 (not_le.2 h')
  simp [h, this]

theorem applied_applied (c : ℚ) (old : MediaElement) : applied c (applied c old) = applied c old := by
  unfold applied
  by_cases hc : c > 0 <;> simp [hc]

theorem applyEach_loaded (els : List Nat) (p : Page) (c : ℚ)
    (h : p.siteSpecificVolume = some c) (hlo : 0 ≤ c) (hhi : c ≤ 1) :
    (applyEach els p).siteSpecificVolume = some c ∧
    (applyEach els p).calls = p.calls ∧
    (applyEach els p).storage = p.storage ∧
    (applyEach els p).siteKey = p.siteKey ∧
    ∀ x, (applyEach els p).elements x
      = if x ∈ els then applied c (p.elements x) else p.elements x := by
  induction els generalizing p with
  | nil => simp [applyEach, h]
  | cons e rest ih =>
    have hne : p.siteSpecificVolume ≠ none := by simp [h]
    have hstep : applyEach (e :: rest) p = applyEach rest (applyVolumeRest e p) := by
      simp [applyEach, applyVolume_of_loaded e p hne]
    obtain ⟨h1, h2, h3, h4⟩ := applyVolumeRest_fields e p
    obtain ⟨i1, i2, i3, i4, i5⟩ := ih (applyVolumeRest e p) (h1.trans h)
    rw [hstep]
    refine ⟨i1, i2.trans h2, i3.trans h3, i4.trans h4, ?_⟩
    intro x
    rw [i5 x, applyVolumeRest_elements e p c h hlo hhi x]
    by_cases hx : x = e
    · subst hx
      by_cases hr : x ∈ rest <;> simp [hr, applied_applied]
    · by_cases hr : x ∈ rest <;> simp [hr, hx]

theorem applyVolume_loads (e : Nat) (p : Page) (h : p.siteSpecificVolume = none) :
    (applyVolume e p).siteSpecificVolume = some ((p.storage p.siteKey).getD DEFAULT_VOLUME) ∧
    (applyVolume e p).calls = p.calls ++ [.getValue p.siteKey DEFAULT_VOLUME] ∧
    (applyVolume e p).storage = p.storage ∧
    (applyVolume e p).siteKey = p.siteKey ∧
    (0 ≤ (p.storage p.siteKey).getD DEFAULT_VOLUME →
      (p.storage p.siteKey).getD DEFAULT_VOLUME ≤ 1 →
      ∀ x, (applyVolume e p).elements x
        = if x = e then applied ((p.storage p.siteKey).getD DEFAULT_VOLUME) (p.elements e)
          else p.elements x) := by
  rw [applyVolume_of_null e p h]
  obtain ⟨f1, f2, f3, f4⟩ := applyVolumeRest_fields e
    { p with
      siteSpecificVolume := some ((p.storage p.siteKey).getD DEFAULT_VOLUME)
      calls := p.calls ++ [.getValue p.siteKey DEFAULT_VOLUME] }
  refine ⟨f1, f2, f3, f4, ?_⟩
  intro hlo hhi x
  rw [applyVolumeRest_elements e _ _ rfl hlo hhi x]

theorem applyEach_null (els : List Nat) (p : Page) (h : p.siteSpecificVolume = none)
    (hlo : 0 ≤ (p.storage p.siteKey).getD DEFAULT_VOLUME)
    (hhi : (p.storage p.siteKey).getD DEFAULT_VOLUME ≤ 1) :
    (applyEach els p).calls
      = p.calls ++ (if els = [] then [] else [.getValue p.siteKey DEFAULT_VOLUME]) ∧
    (applyEach els p).storage = p.storage ∧
    (applyEach els p).siteKey = p.siteKey ∧
    (applyEach els p).siteSpecificVolume
      = (if els = [] then none else some ((p.storage p.siteKey).getD DEFAULT_VOLUME)) ∧
    ∀ x ∈ els, (applyEach els p).elements x
      = applied ((p.storage p.siteKey).getD DEFAULT_VOLUME) (p.elements x) := by
  cases els with
  | nil => simp [applyEach, h]
  | cons e rest =>
    have hstep : applyEach (e :: rest) p = applyEach rest (applyVolume e p) := by
      simp [applyEach]
    obtain ⟨l1, l2, l3, l4, l5⟩ := applyVolume_loads e p h
    obtain ⟨i1, i2, i3, i4, i5⟩ := applyEach_loaded rest (applyVolume e p) _ l1 hlo hhi
    rw [hstep]
    refine ⟨by simp [i2, l2], i3.trans l3, i4.trans l4, by simp [i1], ?_⟩
    intro x hx
    rw [i5 x, l5 hlo hhi x]
    by_cases hxe : x = e
    · subst hxe
      by_cases hr : x ∈ rest <;> simp [hr, applied_applied]
    · have hr : x ∈ rest := by simpa [hxe] using hx
      simp [hr, hxe]

theorem discoveries_eq_applyEach (events : List (List Nat)) (p : Page) :
    discoveries events p = applyEach events.flatten p := by
  induction events generalizing p with
  | nil => rfl
  | cons els rest ih =>
    simp only [discoveries, List.foldl_cons, List.flatten_cons, applyEach, List.foldl_append] at ih ⊢
    rw [ih]

theorem volumechange_applyVolume (e : Nat) (p : Page) (c : ℚ)
    (hc : (applyVolume e p).siteSpecificVolume = some c) (hlo : 0 ≤ c) (hhi : c ≤ 1) :
    volumechange e (applyVolume e p) = applyVolume e p := by
  have key : ∀ q : Page, (applyVolumeRest e q).siteSpecificVolume = some c →
      volumechange e (applyVolumeRest e q) = applyVolumeRest e q := by
    intro q hq
    have hq0 : q.siteSpecificVolume = some c := (applyVolumeRest_fields e q).1.symm.trans hq
    have hel := applyVolumeRest_elements e q c hq0 hlo hhi e
    simp only [if_true] at hel
    simp [volumechange, handleVolumeChange, saveVolume, hel, applied, hq]
  by_cases h : p.siteSpecificVolume = none
  · rw [applyVolume_of_null e p h] at hc ⊢
    exact key _ hc
  · rw [applyVolume_of_loaded e p h] at hc ⊢
    exact key p hc

theorem getCount_append (xs ys : List GMCall) :
    getCount (xs ++ ys) = getCount xs + getCount ys := by
  simp [getCount]

/-! ## The volume saver: the claims -/

/-- C5: `saveVolume(v)` writes exactly when `v` differs from the cached value:
then the cache becomes `v` and `GM_setValue(hostname, v)` is called once; when
`v` equals the cached value the page is left as it is.  On `example.com` with
nothing stored, after the first `applyVolume` (which gets the default `1.0`),
a `volumechange` with volume `0.25` makes the one call
`GM_setValue("example.com", 0.25)`, and a second `volumechange` with the same
volume makes no further call. -/
theorem C5_saveVolume_writes_iff_changed (p : Page) (v : ℚ) :
    (some v ≠ p.siteSpecificVolume →
      (saveVolume v p).siteSpecificVolume = some v ∧
      (saveVolume v p).calls = p.calls ++ [.setValue p.siteKey v] ∧
      (saveVolume v p).storage p.siteKey = some v ∧
      (saveVolume v p).elements = p.elements) ∧
    (some v = p.siteSpecificVolume → saveVolume v p = p) ∧
    (userSetsVolume 0 (1 / 4) (applyVolume 0 examplePage)).calls
      = [.getValue "example.com" 1, .setValue "example.com" (1 / 4)] ∧
    (volumechange 0 (userSetsVolume 0 (1 / 4) (applyVolume 0 examplePage))).calls
      = [.getValue "example.com" 1, .setValue "example.com" (1 / 4)] := by
  refine ⟨?_, ?_, ?_, ?_⟩
  · intro h
    simp [saveVolume, GM_setValue, h]
  · intro h
    simp [saveVolume, h]
  · simp [userSetsVolume, volumechange, handleVolumeChange, saveVolume, GM_setValue, applyVolume,
      applyVolumeStart, applyVolumeResume, applyVolumeRest, GM_getValue, examplePage,
      DEFAULT_VOLUME]
  · simp [userSetsVolume, volumechange, handleVolumeChange, saveVolume, GM_setValue, applyVolume,
      applyVolumeStart, applyVolumeResume, applyVolumeRest, GM_getValue, examplePage,
      DEFAULT_VOLUME]

/-- C5 at the page of `example.com` once the default is cached: saving `1/4`
writes, saving the cached `1` does not. -/
theorem C5_saveVolume_writes_iff_changed_witness :
    (saveVolume (1 / 4) (applyVolume 0 examplePage)).calls
      = (applyVolume 0 examplePage).calls ++ [.setValue "example.com" (1 / 4)] ∧
    saveVolume 1 (applyVolume 0 examplePage) = applyVolume 0 examplePage :=
  ⟨((C5_saveVolume_writes_iff_changed (applyVolume 0 examplePage) (1 / 4)).1
      (by simp [applyVolume, applyVolumeStart, applyVolumeResume, applyVolumeRest, GM_getValue,
        examplePage, DEFAULT_VOLUME])).2.1,
   (C5_saveVolume_writes_iff_changed (applyVolume 0 examplePage) 1).2.1 rfl⟩

/-- C6: on a page whose stored value is a volume `v` (from 0 to 1) and whose
cache is still empty, after any number of discovery events, each
`applyVolume` call finishing before the next starts and the user changing
nothing, every element handed over has volume `v`, `GM_getValue` has been
called at most once, an `applyVolume` call on a loaded cache makes no storage
call, and the `volumechange` event an `applyVolume` call may cause changes
nothing when the cached value is a volume. -/
theorem C6_stored_volume_loaded_once (p : Page) (v : ℚ) (events : List (List Nat))
    (hnull : p.siteSpecificVolume = none) (hstored : p.storage p.siteKey = some v)
    (hlo : 0 ≤ v) (hhi : v ≤ 1) :
    (∀ els ∈ events, ∀ e ∈ els, ((discoveries events p).elements e).volume = v) ∧
    getCount (discoveries events p).calls ≤ getCount p.calls + 1 ∧
    (∀ (q : Page) (e : Nat), q.siteSpecificVolume ≠ none → (applyVolume e q).calls = q.calls) ∧
    (∀ (q : Page) (e : Nat) (c : ℚ), (applyVolume e q).siteSpecificVolume = some c →
      0 ≤ c → c ≤ 1 → volumechange e (applyVolume e q) = applyVolume e q) := by
  rw [discoveries_eq_applyEach]
  have hd : (p.storage p.siteKey).getD DEFAULT_VOLUME = v := by rw [hstored]; rfl
  obtain ⟨h1, -, -, -, h5⟩ := applyEach_null events.flatten p hnull (by rw [hd]; exact hlo)
    (by rw [hd]; exact hhi)
  refine ⟨?_, ?_, ?_, fun q e c hc h0 h1 => volumechange_applyVolume e q c hc h0 h1⟩
  · intro els hels e he
    have hmem : e ∈ events.flatten := List.mem_flatten.2 ⟨els, hels, he⟩
    rw [h5 e hmem, hd]
    rfl
  · rw [h1, getCount_append]
    split_ifs <;> simp [getCount, GMCall.isGet]
  · intro q e hq
    rw [applyVolume_of_loaded e q hq]
    exact (applyVolumeRest_fields e q).2.1

/-- C6 on a page of `example.com` whose stored volume is `0.4`, with three
discovery events. -/
theorem C6_stored_volume_loaded_once_witness :
    (0 : ℚ) ≤ 2 / 5 ∧ (2 / 5 : ℚ) ≤ 1 ∧
    (∀ els ∈ [[0, 1], [2], [1, 3]], ∀ e ∈ els,
      ((discoveries [[0, 1], [2], [1, 3]]
        { examplePage with storage := fun _ => some (2 / 5) }).elements e).volume = 2 / 5) ∧
    getCount (discoveries [[0, 1], [2], [1, 3]]
        { examplePage with storage := fun _ => some (2 / 5) }).calls ≤ 0 + 1 :=
  have h := C6_stored_volume_loaded_once { examplePage with storage := fun _ => some (2 / 5) }
    (2 / 5) [[0, 1], [2], [1, 3]] rfl rfl (by norm_num) (by norm_num)
  ⟨by norm_num, by norm_num, h.1, h.2.1⟩

/-- C8: on a first-time site (nothing cached, nothing stored for the
hostname) `applyVolume` calls `GM_getValue(hostname, 1.0)`, sets the element's
volume to `1.0` and its `muted` flag to `false`, whatever they were. -/
theorem C8_first_time_default (p : Page) (e : Nat)
    (hnull : p.siteSpecificVolume = none) (hempty : p.storage p.siteKey = none) :
    DEFAULT_VOLUME = 1 ∧
    (applyVolume e p).calls = p.calls ++ [.getValue p.siteKey 1] ∧
    ((applyVolume e p).elements e).volume = 1 ∧
    ((applyVolume e p).elements e).muted = false := by
  obtain ⟨-, l2, -, -, l5⟩ := applyVolume_loads e p hnull
  have hd : (p.storage p.siteKey).getD DEFAULT_VOLUME = 1 := by rw [hempty]; rfl
  have hel := l5 (by rw [hd]; exact zero_le_one) (by rw [hd]) e
  simp only [if_true, hd] at hel
  refine ⟨rfl, l2, ?_, ?_⟩
  · rw [hel]; rfl
  · rw [hel]; simp [applied, DEFAULT_VOLUME]

/-- C8 at the page of `example.com`, whose elements start muted at volume `1/2`. -/
theorem C8_first_time_default_witness :
    (examplePage.elements 7).volume = 1 / 2 ∧ (examplePage.elements 7).muted = true ∧
    (applyVolume 7 examplePage).calls = [.getValue "example.com" 1] ∧
    ((applyVolume 7 examplePage).elements 7).volume = 1 ∧
    ((applyVolume 7 examplePage).elements 7).muted = false :=
  have h := C8_first_time_default examplePage 7 rfl rfl
  ⟨rfl, rfl, h.2.1, h.2.2.1, h.2.2.2⟩

theorem resumeAll_calls (queue : List Suspended) (p : Page) :
    (resumeAll queue p).calls = p.calls := by
  induction queue generalizing p with
  | nil => rfl
  | cons t rest ih =>
    simp only [resumeAll, List.foldl_cons] at ih ⊢
    rw [ih]
    exact (applyVolumeRest_fields _ _).2.1

theorem callApplyVolume_null (els : List Nat) (p : Page) (queue : List Suspended)
    (h : p.siteSpecificVolume = none) :
    (els.foldl (fun s element => callApplyVolume element s) (p, queue)).1.calls
      = p.calls ++ List.replicate els.length (.getValue p.siteKey DEFAULT_VOLUME) := by
  induction els generalizing p queue with
  | nil => simp
  | cons e rest ih =>
    have hstep : callApplyVolume e (p, queue)
        = ({ p with calls := p.calls ++ [.getValue p.siteKey DEFAULT_VOLUME] },
            queue ++ [⟨e, (p.storage p.siteKey).getD DEFAULT_VOLUME⟩]) := by
      simp [callApplyVolume, applyVolumeStart, GM_getValue, h]
    rw [List.foldl_cons, hstep]
    have := ih { p with calls := p.calls ++ [.getValue p.siteKey DEFAULT_VOLUME] }
      (queue ++ [⟨e, (p.storage p.siteKey).getD DEFAULT_VOLUME⟩]) h
    rw [this]
    simp [List.replicate_succ]

theorem forEachApplyVolume_singleton (e : Nat) (p : Page) :
    forEachApplyVolume [e] p = applyVolume e p := by
  by_cases h : p.siteSpecificVolume = none <;>
    simp [forEachApplyVolume, callApplyVolume, resumeAll, applyVolume, applyVolumeStart, h]

/-- C7, on the code: `forEach(applyVolume)` over the two elements `0` and `1` of
a page whose cache is still `null` calls `GM_getValue` twice, and over any
elements it calls `GM_getValue` once for each of them: every call reaches line
41 before any assignment to `siteSpecificVolume` has been made. -/
theorem C7_forEach_loads_per_element :
    (forEachApplyVolume [0, 1] examplePage).calls
      = [.getValue "example.com" 1, .getValue "example.com" 1] ∧
    getCount (forEachApplyVolume [0, 1] examplePage).calls = 2 ∧
    (∀ (els : List Nat) (p : Page), p.siteSpecificVolume = none →
      getCount (forEachApplyVolume els p).calls = getCount p.calls + els.length) := by
  refine ⟨by decide, by decide, ?_⟩
  intro els p h
  unfold forEachApplyVolume
  simp only [resumeAll_calls]
  rw [callApplyVolume_null els p [] h, getCount_append]
  simp [getCount, GMCall.isGet]

/-- C9: when the user sets the volume of a listening element to `0` and the
cache held something else, the cache and the stored value become `0` and no
element's `muted` flag changes; every element later handed to `applyVolume`
gets volume `0`, keeps the `muted` flag it had, and no storage call is made
for it. -/
theorem C9_zero_volume_keeps_muted (p : Page) (target : Nat) (els : List Nat)
    (hlisten : (p.elements target).listening = true)
    (hcache : p.siteSpecificVolume ≠ some 0) :
    (userSetsVolume target 0 p).siteSpecificVolume = some 0 ∧
    (userSetsVolume target 0 p).storage p.siteKey = some 0 ∧
    (userSetsVolume target 0 p).calls = p.calls ++ [.setValue p.siteKey 0] ∧
    (∀ x, ((userSetsVolume target 0 p).elements x).muted = (p.elements x).muted) ∧
    (applyEach els (userSetsVolume target 0 p)).calls = (userSetsVolume target 0 p).calls ∧
    (∀ e ∈ els,
      ((applyEach els (userSetsVolume target 0 p)).elements e).volume = 0 ∧
      ((applyEach els (userSetsVolume target 0 p)).elements e).muted = (p.elements e).muted) := by
  have hne : ¬ (some (0 : ℚ) = p.siteSpecificVolume) := fun h => hcache h.symm
  have hp1 : userSetsVolume target 0 p
      = { p with
          siteSpecificVolume := some 0
          storage := Function.update p.storage p.siteKey (some 0)
          calls := p.calls ++ [.setValue p.siteKey 0]
          elements := Function.update p.elements target { p.elements target with volume := 0 } } := by
    simp [userSetsVolume, volumechange, handleVolumeChange, saveVolume, GM_setValue, hlisten, hne]
  have hmuted : ∀ x, ((userSetsVolume target 0 p).elements x).muted = (p.elements x).muted := by
    intro x
    rw [hp1]
    by_cases hx : x = target
    · subst hx; simp
    · simp [Function.update_noteq hx]
  obtain ⟨-, i2, -, -, i5⟩ := applyEach_loaded els (userSetsVolume target 0 p) 0 (by rw [hp1])
    le_rfl zero_le_one
  refine ⟨by rw [hp1], by rw [hp1]; simp, by rw [hp1], hmuted, i2, ?_⟩
  intro e he
  rw [i5 e]
  simp [he, applied, hmuted e]

/-- C9 on the page of `example.com` after element `0` was registered: the
user sets it to `0`, then the muted elements `1` and `2` are discovered. -/
theorem C9_zero_volume_keeps_muted_witness :
    (examplePage.elements 1).muted = true ∧
    (applyEach [1, 2] (userSetsVolume 0 0 (applyVolume 0 examplePage))).calls
      = [.getValue "example.com" 1, .setValue "example.com" 0] ∧
    ((applyEach [1, 2] (userSetsVolume 0 0 (applyVolume 0 examplePage))).elements 1).volume = 0 ∧
    ((applyEach [1, 2] (userSetsVolume 0 0 (applyVolume 0 examplePage))).elements 1).muted
      = true :=
  have h := C9_zero_volume_keeps_muted (applyVolume 0 examplePage) 0 [1, 2] rfl (by decide)
  ⟨rfl, h.2.2.2.2.1.trans h.2.2.1, (h.2.2.2.2.2 1 (by decide)).1,
   (h.2.2.2.2.2 1 (by decide)).2⟩

end PersistentVolume
